import Mathlib

/-!
Shallow embedding of `src/resizable_rect_item.py` (class `ResizableRectItem`).

Geometry is modelled in exact rational canvas units.  The Qt primitives the
code calls (`QPointF`, `QRectF` with `adjusted`, `setLeft`, `setTop`,
`setRight`, `setBottom`, `setRect`, `center`, `contains`) are embedded after
Qt's documented semantics: a `QRectF` stores `(x, y, w, h)`; `left = x`,
`top = y`, `right = x + w`, `bottom = y + h`; the edge setters keep the
opposite edge fixed; `contains` is closed-interval membership after
normalising a negative width/height, and is false for a null (zero-width or
zero-height) rectangle.

The item's mutable state (`rect`, the eight `handles`, `handleSelected`,
`mousePressPos`, `mousePressRect`, and which `mouseMoveEvent` handler is
installed) becomes an explicit `ItemState` record; each event handler is a
function on that record.  The eight resize handlers dereference
`mousePressPos` / `mousePressRect`, which the Python code leaves as `None`
outside a press, so they return `Option ItemState` (`none` models the
`AttributeError` the Python would raise on a `None` dereference).
-/

/-- A point with exact rational coordinates, modelling Qt's `QPointF`. -/
structure QPointF where
  x : ℚ
  y : ℚ
deriving DecidableEq

/-- An axis-aligned rectangle stored as `(x, y, w, h)`, modelling `QRectF`. -/
structure QRectF where
  x : ℚ
  y : ℚ
  w : ℚ
  h : ℚ
deriving DecidableEq

namespace QRectF

/-- Qt `QRectF.left()`. -/
def left (r : QRectF) : ℚ := r.x

/-- Qt `QRectF.top()`. -/
def top (r : QRectF) : ℚ := r.y

/-- Qt `QRectF.right()`: `x + w`. -/
def right (r : QRectF) : ℚ := r.x + r.w

/-- Qt `QRectF.bottom()`: `y + h`. -/
def bottom (r : QRectF) : ℚ := r.y + r.h

/-- Qt `QRectF.center().x()`. -/
def centerX (r : QRectF) : ℚ := r.x + r.w / 2

/-- Qt `QRectF.center().y()`. -/
def centerY (r : QRectF) : ℚ := r.y + r.h / 2

/-- Qt `QRectF.adjusted(dx1, dy1, dx2, dy2)`: moves the four edges. -/
def adjusted (r : QRectF) (dx1 dy1 dx2 dy2 : ℚ) : QRectF :=
  ⟨r.x + dx1, r.y + dy1, r.w + dx2 - dx1, r.h + dy2 - dy1⟩

/-- Qt `QRectF.setLeft(pos)`: moves the left edge, keeping the right edge. -/
def setLeft (r : QRectF) (pos : ℚ) : QRectF :=
  ⟨pos, r.y, r.w - (pos - r.x), r.h⟩

/-- Qt `QRectF.setTop(pos)`: moves the top edge, keeping the bottom edge. -/
def setTop (r : QRectF) (pos : ℚ) : QRectF :=
  ⟨r.x, pos, r.w, r.h - (pos - r.y)⟩

/-- Qt `QRectF.setRight(pos)`: moves the right edge, keeping the left edge. -/
def setRight (r : QRectF) (pos : ℚ) : QRectF :=
  ⟨r.x, r.y, pos - r.x, r.h⟩

/-- Qt `QRectF.setBottom(pos)`: moves the bottom edge, keeping the top edge. -/
def setBottom (r : QRectF) (pos : ℚ) : QRectF :=
  ⟨r.x, r.y, r.w, pos - r.y⟩

/-- Qt `QRectF.setRect(x, y, w, h)`: replaces all four components. -/
def setRect (_ : QRectF) (nx ny nw nh : ℚ) : QRectF :=
  ⟨nx, ny, nw, nh⟩

/-- One axis of Qt `QRectF.contains(point)`: after normalising a negative
extent, closed-interval membership, false when the extent is zero. -/
def containsAxis (lo len v : ℚ) : Bool :=
  let l := if len < 0 then lo + len else lo
  let r := if len < 0 then lo else lo + len
  decide (l ≠ r) && decide (l ≤ v) && decide (v ≤ r)

/-- Qt `QRectF.contains(point)`: after normalising a negative width or
height, closed-interval membership on both axes; false for a null
(zero-width or zero-height) rectangle. -/
def contains (r : QRectF) (p : QPointF) : Bool :=
  containsAxis r.x r.w p.x && containsAxis r.y r.h p.y

end QRectF

/-- Class attribute `handleSize = +8.0`. -/
def handleSize : ℚ := 8

/-- Class attribute `handleSpace = -4.0`. -/
def handleSpace : ℚ := -4

/-- The mutable state of one `ResizableRectItem`: the rect owned by the
`QGraphicsRectItem` base, the list `self.handles` (indexed 0..7 by the
`handleTopLeft` .. `handleBottomRight` constants), `self.handleSelected`,
`self.mousePressPos`, `self.mousePressRect`, and `moveMode`, which records
which function is currently installed as `self.mouseMoveEvent` (`none` for
`mouseMoveEventCenter`, `some k` for the handler of handle `k`). -/
structure ItemState where
  rect : QRectF
  handles : Fin 8 → QRectF
  handleSelected : Option (Fin 8)
  mousePressPos : Option QPointF
  mousePressRect : Option QRectF
  moveMode : Option (Fin 8)

/-- Method `boundingRect`: the shape's rect grown by
`o = handleSize + handleSpace` on every side. -/
def boundingRect (rect : QRectF) : QRectF :=
  let o := handleSize + handleSpace
  rect.adjusted (-o) (-o) o o

/-- Method `initHandles`: the eight handle squares as a function of the
shape's rect, in the enumeration order `handleTopLeft = 0` ..
`handleBottomRight = 7`. -/
def initHandles (rect : QRectF) : Fin 8 → QRectF :=
  let s := handleSize
  let b := boundingRect rect
  ![⟨b.left, b.top, s, s⟩,
    ⟨b.centerX - s / 2, b.top, s, s⟩,
    ⟨b.right - s, b.top, s, s⟩,
    ⟨b.left, b.centerY - s / 2, s, s⟩,
    ⟨b.right - s, b.centerY - s / 2, s, s⟩,
    ⟨b.left, b.bottom - s, s, s⟩,
    ⟨b.centerX - s / 2, b.bottom - s, s, s⟩,
    ⟨b.right - s, b.bottom - s, s, s⟩]

/-- Method `updateHandlesPos`: calls `setRect` on each stored handle with
the same arguments `initHandles` passes to the `QRectF` constructor. -/
def updateHandlesPos (rect : QRectF) (handles : Fin 8 → QRectF) :
    Fin 8 → QRectF :=
  let s := handleSize
  let b := boundingRect rect
  ![(handles 0).setRect b.left b.top s s,
    (handles 1).setRect (b.centerX - s / 2) b.top s s,
    (handles 2).setRect (b.right - s) b.top s s,
    (handles 3).setRect b.left (b.centerY - s / 2) s s,
    (handles 4).setRect (b.right - s) (b.centerY - s / 2) s s,
    (handles 5).setRect b.left (b.bottom - s) s s,
    (handles 6).setRect (b.centerX - s / 2) (b.bottom - s) s s,
    (handles 7).setRect (b.right - s) (b.bottom - s) s s]

/-- Method `handleAt`: the first handle (in enumeration order 0..7) whose
region contains the point, else `none`. -/
def handleAt (handles : Fin 8 → QRectF) (point : QPointF) : Option (Fin 8) :=
  (List.finRange 8).find? fun k => (handles k).contains point

/-- Method `mousePressEvent`: selects `handleAt(pos)`; when a handle is hit
it records the press position and the current bounding rect and installs
that handle's move handler, otherwise it installs `mouseMoveEventCenter`. -/
def mousePressEvent (st : ItemState) (pos : QPointF) : ItemState :=
  match handleAt st.handles pos with
  | some k =>
      { st with
        handleSelected := some k
        mousePressPos := some pos
        mousePressRect := some (boundingRect st.rect)
        moveMode := some k }
  | none =>
      { st with handleSelected := none, moveMode := none }

/-- Method `mouseReleaseEvent`: clears `handleSelected`, `mousePressPos`
and `mousePressRect` (the installed move handler is not reset). -/
def mouseReleaseEvent (st : ItemState) : ItemState :=
  { st with
    handleSelected := none
    mousePressPos := none
    mousePressRect := none }

/-- Method `mouseMoveEventTopLeft`. -/
def mouseMoveEventTopLeft (st : ItemState) (mousePos : QPointF) :
    Option ItemState := do
  let mousePressPos ← st.mousePressPos
  let mousePressRect ← st.mousePressRect
  let offset := handleSize + handleSpace
  let b0 := boundingRect st.rect
  let r0 := st.rect
  let fromX := mousePressRect.left
  let fromY := mousePressRect.top
  let toX := fromX + mousePos.x - mousePressPos.x
  let toY := fromY + mousePos.y - mousePressPos.y
  let b1 := (b0.setLeft toX).setTop toY
  let r1 := (r0.setLeft (b1.left + offset)).setTop (b1.top + offset)
  return { st with rect := r1, handles := updateHandlesPos r1 st.handles }

/-- Method `mouseMoveEventTopMiddle`. -/
def mouseMoveEventTopMiddle (st : ItemState) (mousePos : QPointF) :
    Option ItemState := do
  let mousePressPos ← st.mousePressPos
  let mousePressRect ← st.mousePressRect
  let offset := handleSize + handleSpace
  let b0 := boundingRect st.rect
  let r0 := st.rect
  let fromY := mousePressRect.top
  let toY := fromY + mousePos.y - mousePressPos.y
  let b1 := b0.setTop toY
  let r1 := r0.setTop (b1.top + offset)
  return { st with rect := r1, handles := updateHandlesPos r1 st.handles }

/-- Method `mouseMoveEventTopRight`. -/
def mouseMoveEventTopRight (st : ItemState) (mousePos : QPointF) :
    Option ItemState := do
  let mousePressPos ← st.mousePressPos
  let mousePressRect ← st.mousePressRect
  let offset := handleSize + handleSpace
  let b0 := boundingRect st.rect
  let r0 := st.rect
  let fromX := mousePressRect.right
  let fromY := mousePressRect.top
  let toX := fromX + mousePos.x - mousePressPos.x
  let toY := fromY + mousePos.y - mousePressPos.y
  let b1 := (b0.setRight toX).setTop toY
  let r1 := (r0.setRight (b1.right - offset)).setTop (b1.top + offset)
  return { st with rect := r1, handles := updateHandlesPos r1 st.handles }

/-- Method `mouseMoveEventMiddleLeft`. -/
def mouseMoveEventMiddleLeft (st : ItemState) (mousePos : QPointF) :
    Option ItemState := do
  let mousePressPos ← st.mousePressPos
  let mousePressRect ← st.mousePressRect
  let offset := handleSize + handleSpace
  let b0 := boundingRect st.rect
  let r0 := st.rect
  let fromX := mousePressRect.left
  let toX := fromX + mousePos.x - mousePressPos.x
  let b1 := b0.setLeft toX
  let r1 := r0.setLeft (b1.left + offset)
  return { st with rect := r1, handles := updateHandlesPos r1 st.handles }

/-- Method `mouseMoveEventMiddleRight`. -/
def mouseMoveEventMiddleRight (st : ItemState) (mousePos : QPointF) :
    Option ItemState := do
  let mousePressPos ← st.mousePressPos
  let mousePressRect ← st.mousePressRect
  let offset := handleSize + handleSpace
  let b0 := boundingRect st.rect
  let r0 := st.rect
  let fromX := mousePressRect.right
  let toX := fromX + mousePos.x - mousePressPos.x
  let b1 := b0.setRight toX
  let r1 := r0.setRight (b1.right - offset)
  return { st with rect := r1, handles := updateHandlesPos r1 st.handles }

/-- Method `mouseMoveEventBottomLeft`. -/
def mouseMoveEventBottomLeft (st : ItemState) (mousePos : QPointF) :
    Option ItemState := do
  let mousePressPos ← st.mousePressPos
  let mousePressRect ← st.mousePressRect
  let offset := handleSize + handleSpace
  let b0 := boundingRect st.rect
  let r0 := st.rect
  let fromX := mousePressRect.left
  let fromY := mousePressRect.bottom
  let toX := fromX + mousePos.x - mousePressPos.x
  let toY := fromY + mousePos.y - mousePressPos.y
  let b1 := (b0.setLeft toX).setBottom toY
  let r1 := (r0.setLeft (b1.left + offset)).setBottom (b1.bottom - offset)
  return { st with rect := r1, handles := updateHandlesPos r1 st.handles }

/-- Method `mouseMoveEventBottomMiddle`. -/
def mouseMoveEventBottomMiddle (st : ItemState) (mousePos : QPointF) :
    Option ItemState := do
  let mousePressPos ← st.mousePressPos
  let mousePressRect ← st.mousePressRect
  let offset := handleSize + handleSpace
  let b0 := boundingRect st.rect
  let r0 := st.rect
  let fromY := mousePressRect.bottom
  let toY := fromY + mousePos.y - mousePressPos.y
  let b1 := b0.setBottom toY
  let r1 := r0.setBottom (b1.bottom - offset)
  return { st with rect := r1, handles := updateHandlesPos r1 st.handles }

/-- Method `mouseMoveEventBottomRight`. -/
def mouseMoveEventBottomRight (st : ItemState) (mousePos : QPointF) :
    Option ItemState := do
  let mousePressPos ← st.mousePressPos
  let mousePressRect ← st.mousePressRect
  let offset := handleSize + handleSpace
  let b0 := boundingRect st.rect
  let r0 := st.rect
  let fromX := mousePressRect.right
  let fromY := mousePressRect.bottom
  let toX := fromX + mousePos.x - mousePressPos.x
  let toY := fromY + mousePos.y - mousePressPos.y
  let b1 := (b0.setRight toX).setBottom toY
  let r1 := (r0.setRight (b1.right - offset)).setBottom (b1.bottom - offset)
  return { st with rect := r1, handles := updateHandlesPos r1 st.handles }

/-- The list `self.mouseMoveEventByHandle` from `__init__`, indexed by the
handle constants 0..7. -/
def mouseMoveEventByHandle : Fin 8 → ItemState → QPointF → Option ItemState :=
  ![mouseMoveEventTopLeft,
    mouseMoveEventTopMiddle,
    mouseMoveEventTopRight,
    mouseMoveEventMiddleLeft,
    mouseMoveEventMiddleRight,
    mouseMoveEventBottomLeft,
    mouseMoveEventBottomMiddle,
    mouseMoveEventBottomRight]

/-- One drawing call issued by `paint`. -/
inductive PaintOp where
  | drawRect : QRectF → PaintOp
  | drawEllipse : QRectF → PaintOp
deriving DecidableEq

/-- Method `paint`: draws the shape's rect, then one ellipse per handle
whose index passes the filter
`self.handleSelected is None or handle == self.handleSelected`. -/
def paint (st : ItemState) : List PaintOp :=
  PaintOp.drawRect st.rect ::
    (List.finRange 8).filterMap fun handle =>
      if st.handleSelected = none ∨ st.handleSelected = some handle then
        some (PaintOp.drawEllipse (st.handles handle))
      else none

/-- The state of an item whose rect has edges `(L, T, R, B)` immediately
after a press on handle `k`: the press position `(px, py)` and the
bounding rect are recorded, handle `k`'s move handler is installed. -/
def pressState (k : Fin 8) (L T R B px py : ℚ) : ItemState :=
  { rect := ⟨L, T, R - L, B - T⟩
    handles := initHandles ⟨L, T, R - L, B - T⟩
    handleSelected := some k
    mousePressPos := some ⟨px, py⟩
    mousePressRect := some (boundingRect ⟨L, T, R - L, B - T⟩)
    moveMode := some k }

/-- The spec's §4.1 per-handle transform table, on rect edges `(L, T, R, B)`
and a drag delta `(dx, dy)`. -/
def dragTable (k : Fin 8) (L T R B dx dy : ℚ) : ℚ × ℚ × ℚ × ℚ :=
  ![(L + dx, T + dy, R, B),
    (L, T + dy, R, B),
    (L, T + dy, R + dx, B),
    (L + dx, T, R, B),
    (L, T, R + dx, B),
    (L + dx, T, R, B + dy),
    (L, T, R, B + dy),
    (L, T, R + dx, B + dy)] k

/-- Strict (interior) membership of a point in a rectangle, the notion of
"strictly inside" used by the spec's hit-testing property. -/
def strictlyInside (r : QRectF) (p : QPointF) : Prop :=
  r.left < p.x ∧ p.x < r.right ∧ r.top < p.y ∧ p.y < r.bottom

instance (r : QRectF) (p : QPointF) : Decidable (strictlyInside r p) := by
  unfold strictlyInside
  infer_instance

/-- The item state built by `main()`: `ResizableRectItem(0, 0, 300, 150)`
right after `__init__` (handles initialised, no session, center move
handler installed). -/
def initialItem : ItemState :=
  { rect := ⟨0, 0, 300, 150⟩
    handles := initHandles ⟨0, 0, 300, 150⟩
    handleSelected := none
    mousePressPos := none
    mousePressRect := none
    moveMode := none }

/-! ## Helper lemmas -/

/-- `handleAt` unfolded over the eight-element enumeration. -/
lemma handleAt_unfold (hs : Fin 8 → QRectF) (p : QPointF) :
    handleAt hs p =
      cond ((hs 0).contains p) (some 0)
      (cond ((hs 1).contains p) (some 1)
      (cond ((hs 2).contains p) (some 2)
      (cond ((hs 3).contains p) (some 3)
      (cond ((hs 4).contains p) (some 4)
      (cond ((hs 5).contains p) (some 5)
      (cond ((hs 6).contains p) (some 6)
      (cond ((hs 7).contains p) (some 7) none))))))) := rfl

/-- `updateHandlesPos` writes the same eight rectangles `initHandles`
builds, whatever the stored handles were. -/
lemma updateHandles_eq_init (r : QRectF) (hs : Fin 8 → QRectF) :
    updateHandlesPos r hs = initHandles r := by
  funext k
  fin_cases k <;> rfl

/-- Every handle region is a `handleSize`-wide square. -/
lemma initHandles_w (r : QRectF) (k : Fin 8) :
    (initHandles r k).w = handleSize := by
  fin_cases k <;> rfl

/-- Every handle region is a `handleSize`-tall square. -/
lemma initHandles_h (r : QRectF) (k : Fin 8) :
    (initHandles r k).h = handleSize := by
  fin_cases k <;> rfl

/-- For a rectangle of positive width and height, closed-interval
membership on both axes makes `contains` true. -/
lemma contains_of_pos (r : QRectF) (p : QPointF) (hw : 0 < r.w) (hh : 0 < r.h)
    (h1 : r.x ≤ p.x) (h2 : p.x ≤ r.x + r.w)
    (h3 : r.y ≤ p.y) (h4 : p.y ≤ r.y + r.h) :
    r.contains p = true := by
  have hw2 : ¬ r.w < 0 := not_lt.2 hw.le
  have hh2 : ¬ r.h < 0 := not_lt.2 hh.le
  have hx : r.x ≠ r.x + r.w := by intro h; nlinarith [congrArg (· - r.x) h]
  have hy : r.y ≠ r.y + r.h := by intro h; nlinarith [congrArg (· - r.y) h]
  simp [QRectF.contains, QRectF.containsAxis, hw2, hh2, hx, hy, h1, h2, h3, h4]

/-- `handleAt` returns `k` as soon as `k`'s region holds the point and no
earlier region does. -/
lemma handleAt_eq_some_of_first (hs : Fin 8 → QRectF) (p : QPointF) (k : Fin 8)
    (hk : (hs k).contains p = true)
    (hfirst : ∀ j : Fin 8, j < k → (hs j).contains p = false) :
    handleAt hs p = some k := by
  rw [handleAt_unfold]
  fin_cases k
  · simp [show (hs 0).contains p = true from hk]
  · simp [hfirst 0 (by decide), show (hs 1).contains p = true from hk]
  · simp [hfirst 0 (by decide), hfirst 1 (by decide),
      show (hs 2).contains p = true from hk]
  · simp [hfirst 0 (by decide), hfirst 1 (by decide), hfirst 2 (by decide),
      show (hs 3).contains p = true from hk]
  · simp [hfirst 0 (by decide), hfirst 1 (by decide), hfirst 2 (by decide),
      hfirst 3 (by decide), show (hs 4).contains p = true from hk]
  · simp [hfirst 0 (by decide), hfirst 1 (by decide), hfirst 2 (by decide),
      hfirst 3 (by decide), hfirst 4 (by decide),
      show (hs 5).contains p = true from hk]
  · simp [hfirst 0 (by decide), hfirst 1 (by decide), hfirst 2 (by decide),
      hfirst 3 (by decide), hfirst 4 (by decide), hfirst 5 (by decide),
      show (hs 6).contains p = true from hk]
  · simp [hfirst 0 (by decide), hfirst 1 (by decide), hfirst 2 (by decide),
      hfirst 3 (by decide), hfirst 4 (by decide), hfirst 5 (by decide),
      hfirst 6 (by decide), show (hs 7).contains p = true from hk]

/-! ## Claim theorems -/

/-- C8: `mouseReleaseEvent` ends and discards the drag session — the
selected handle index, the press-time pointer position and the press-time
rect snapshot all become `none` — while the rect and the eight handle
regions are left unchanged. -/
theorem release_discards_session (st : ItemState) :
    (mouseReleaseEvent st).handleSelected = none ∧
      (mouseReleaseEvent st).mousePressPos = none ∧
      (mouseReleaseEvent st).mousePressRect = none ∧
      (mouseReleaseEvent st).rect = st.rect ∧
      (mouseReleaseEvent st).handles = st.handles := by
  simp [mouseReleaseEvent]

/-- C10: `updateHandlesPos` computes, for every rect and whatever handle
rectangles were stored before, exactly the handle layout `initHandles`
computes, and the bounding rect both read is the rect expanded by
`handleSize + handleSpace = 4` units on every side. -/
theorem updateHandles_matches_initHandles (rect : QRectF) (hs : Fin 8 → QRectF) :
    updateHandlesPos rect hs = initHandles rect ∧
      boundingRect rect = ⟨rect.x - 4, rect.y - 4, rect.w + 8, rect.h + 8⟩ := by
  refine ⟨updateHandles_eq_init rect hs, ?_⟩
  simp only [boundingRect, QRectF.adjusted, handleSize, handleSpace, QRectF.mk.injEq]
  refine ⟨by ring, by ring, by ring, by ring⟩

/-- C9: `paint` draws the rectangle and then the handle markers: all eight
when no handle is selected, and exactly the selected one otherwise. -/
theorem paint_draws_selected_only (st : ItemState) :
    paint st = PaintOp.drawRect st.rect ::
      (match st.handleSelected with
       | none => (List.finRange 8).map fun k => PaintOp.drawEllipse (st.handles k)
       | some k => [PaintOp.drawEllipse (st.handles k)]) := by
  have hl : List.finRange 8 = [0, 1, 2, 3, 4, 5, 6, 7] := by decide
  cases h : st.handleSelected with
  | none => simp [paint, h, hl, List.filterMap_cons]
  | some k =>
      simp only [paint, h, hl]
      fin_cases k <;> simp [List.filterMap_cons]

/-- C7 (amended): `mousePressEvent` selects `handleAt(point)`; when a
handle is hit it records the press point and the current bounding rect
(the rect expanded by 4 units per side) as the press-time snapshot and
installs that handle's move handler; when no handle is hit nothing is
recorded and the whole-shape-translate move handler is installed; the
rect and handle regions are untouched. -/
theorem press_starts_session (st : ItemState) (pos : QPointF) :
    (mousePressEvent st pos).handleSelected = handleAt st.handles pos ∧
      (mousePressEvent st pos).moveMode = handleAt st.handles pos ∧
      (mousePressEvent st pos).mousePressPos =
        (if (handleAt st.handles pos).isSome then some pos else st.mousePressPos) ∧
      (mousePressEvent st pos).mousePressRect =
        (if (handleAt st.handles pos).isSome then some (boundingRect st.rect)
         else st.mousePressRect) ∧
      (mousePressEvent st pos).rect = st.rect ∧
      (mousePressEvent st pos).handles = st.handles := by
  cases h : handleAt st.handles pos <;> simp [mousePressEvent, h]

/-- C7 (counterexample to the claim as stated): pressing the initial
`(0, 0, 300, 150)` item at `(0, 0)` hits handle 0, but the recorded
press-time snapshot is the bounding rect `(-4, -4)..(304, 154)`, not the
current rect `(0, 0, 300, 150)` the claim names. -/
theorem press_snapshot_cex :
    (mousePressEvent initialItem ⟨0, 0⟩).handleSelected = some 0 ∧
      (mousePressEvent initialItem ⟨0, 0⟩).mousePressRect ≠ some initialItem.rect := by
  have hA : handleAt (initHandles ⟨0, 0, 300, 150⟩) ⟨0, 0⟩ = some 0 := by
    rw [handleAt_unfold]
    norm_num [initHandles, boundingRect, QRectF.adjusted, QRectF.left, QRectF.top,
      QRectF.right, QRectF.bottom, QRectF.centerX, QRectF.centerY,
      QRectF.contains, QRectF.containsAxis, handleSize, handleSpace,
      Matrix.cons_val_zero, Matrix.cons_val_one, Matrix.head_cons]
  constructor
  · simp [mousePressEvent, initialItem, hA]
  · simp only [mousePressEvent, initialItem, hA]
    norm_num [boundingRect, QRectF.adjusted, handleSize, handleSpace, QRectF.mk.injEq]


/-! ## Closed forms of the resize handlers -/

/-- The state `mouseMoveEventTopLeft` stores, in closed form: the press-time
bounding rect `pr`, the press position `pp` and the current pointer `mp`
determine the moved edges; the untouched edges come from the current rect. -/
lemma topLeft_eq (rect : QRectF) (hs : Fin 8 → QRectF) (hsel mm : Option (Fin 8))
    (pp mp : QPointF) (pr : QRectF) :
    mouseMoveEventTopLeft ⟨rect, hs, hsel, some pp, some pr, mm⟩ mp =
      some ⟨⟨pr.x + (mp.x - pp.x) + 4,
             pr.y + (mp.y - pp.y) + 4,
             rect.x + rect.w - (pr.x + (mp.x - pp.x) + 4),
             rect.y + rect.h - (pr.y + (mp.y - pp.y) + 4)⟩,
            initHandles
              ⟨pr.x + (mp.x - pp.x) + 4,
               pr.y + (mp.y - pp.y) + 4,
               rect.x + rect.w - (pr.x + (mp.x - pp.x) + 4),
               rect.y + rect.h - (pr.y + (mp.y - pp.y) + 4)⟩,
            hsel, some pp, some pr, mm⟩ := by
  simp only [mouseMoveEventTopLeft, Option.bind, QRectF.setLeft, QRectF.setTop,
    QRectF.setRight, QRectF.setBottom, QRectF.left, QRectF.top, QRectF.right,
    QRectF.bottom, boundingRect, QRectF.adjusted, handleSize, handleSpace,
    updateHandles_eq_init, Option.some.injEq, ItemState.mk.injEq, QRectF.mk.injEq]
  norm_num
  and_intros <;> first | rfl | trivial | ring

/-- The state `mouseMoveEventTopMiddle` stores, in closed form: the press-time
bounding rect `pr`, the press position `pp` and the current pointer `mp`
determine the moved edges; the untouched edges come from the current rect. -/
lemma topMiddle_eq (rect : QRectF) (hs : Fin 8 → QRectF) (hsel mm : Option (Fin 8))
    (pp mp : QPointF) (pr : QRectF) :
    mouseMoveEventTopMiddle ⟨rect, hs, hsel, some pp, some pr, mm⟩ mp =
      some ⟨⟨rect.x,
             pr.y + (mp.y - pp.y) + 4,
             rect.w,
             rect.y + rect.h - (pr.y + (mp.y - pp.y) + 4)⟩,
            initHandles
              ⟨rect.x,
               pr.y + (mp.y - pp.y) + 4,
               rect.w,
               rect.y + rect.h - (pr.y + (mp.y - pp.y) + 4)⟩,
            hsel, some pp, some pr, mm⟩ := by
  simp only [mouseMoveEventTopMiddle, Option.bind, QRectF.setLeft, QRectF.setTop,
    QRectF.setRight, QRectF.setBottom, QRectF.left, QRectF.top, QRectF.right,
    QRectF.bottom, boundingRect, QRectF.adjusted, handleSize, handleSpace,
    updateHandles_eq_init, Option.some.injEq, ItemState.mk.injEq, QRectF.mk.injEq]
  norm_num
  and_intros <;> first | rfl | trivial | ring

/-- The state `mouseMoveEventTopRight` stores, in closed form: the press-time
bounding rect `pr`, the press position `pp` and the current pointer `mp`
determine the moved edges; the untouched edges come from the current rect. -/
lemma topRight_eq (rect : QRectF) (hs : Fin 8 → QRectF) (hsel mm : Option (Fin 8))
    (pp mp : QPointF) (pr : QRectF) :
    mouseMoveEventTopRight ⟨rect, hs, hsel, some pp, some pr, mm⟩ mp =
      some ⟨⟨rect.x,
             pr.y + (mp.y - pp.y) + 4,
             pr.x + pr.w + (mp.x - pp.x) - 4 - rect.x,
             rect.y + rect.h - (pr.y + (mp.y - pp.y) + 4)⟩,
            initHandles
              ⟨rect.x,
               pr.y + (mp.y - pp.y) + 4,
               pr.x + pr.w + (mp.x - pp.x) - 4 - rect.x,
               rect.y + rect.h - (pr.y + (mp.y - pp.y) + 4)⟩,
            hsel, some pp, some pr, mm⟩ := by
  simp only [mouseMoveEventTopRight, Option.bind, QRectF.setLeft, QRectF.setTop,
    QRectF.setRight, QRectF.setBottom, QRectF.left, QRectF.top, QRectF.right,
    QRectF.bottom, boundingRect, QRectF.adjusted, handleSize, handleSpace,
    updateHandles_eq_init, Option.some.injEq, ItemState.mk.injEq, QRectF.mk.injEq]
  norm_num
  and_intros <;> first | rfl | trivial | ring

/-- The state `mouseMoveEventMiddleLeft` stores, in closed form: the press-time
bounding rect `pr`, the press position `pp` and the current pointer `mp`
determine the moved edges; the untouched edges come from the current rect. -/
lemma middleLeft_eq (rect : QRectF) (hs : Fin 8 → QRectF) (hsel mm : Option (Fin 8))
    (pp mp : QPointF) (pr : QRectF) :
    mouseMoveEventMiddleLeft ⟨rect, hs, hsel, some pp, some pr, mm⟩ mp =
      some ⟨⟨pr.x + (mp.x - pp.x) + 4,
             rect.y,
             rect.x + rect.w - (pr.x + (mp.x - pp.x) + 4),
             rect.h⟩,
            initHandles
              ⟨pr.x + (mp.x - pp.x) + 4,
               rect.y,
               rect.x + rect.w - (pr.x + (mp.x - pp.x) + 4),
               rect.h⟩,
            hsel, some pp, some pr, mm⟩ := by
  simp only [mouseMoveEventMiddleLeft, Option.bind, QRectF.setLeft, QRectF.setTop,
    QRectF.setRight, QRectF.setBottom, QRectF.left, QRectF.top, QRectF.right,
    QRectF.bottom, boundingRect, QRectF.adjusted, handleSize, handleSpace,
    updateHandles_eq_init, Option.some.injEq, ItemState.mk.injEq, QRectF.mk.injEq]
  norm_num
  and_intros <;> first | rfl | trivial | ring

/-- The state `mouseMoveEventMiddleRight` stores, in closed form: the press-time
bounding rect `pr`, the press position `pp` and the current pointer `mp`
determine the moved edges; the untouched edges come from the current rect. -/
lemma middleRight_eq (rect : QRectF) (hs : Fin 8 → QRectF) (hsel mm : Option (Fin 8))
    (pp mp : QPointF) (pr : QRectF) :
    mouseMoveEventMiddleRight ⟨rect, hs, hsel, some pp, some pr, mm⟩ mp =
      some ⟨⟨rect.x,
             rect.y,
             pr.x + pr.w + (mp.x - pp.x) - 4 - rect.x,
             rect.h⟩,
            initHandles
              ⟨rect.x,
               rect.y,
               pr.x + pr.w + (mp.x - pp.x) - 4 - rect.x,
               rect.h⟩,
            hsel, some pp, some pr, mm⟩ := by
  simp only [mouseMoveEventMiddleRight, Option.bind, QRectF.setLeft, QRectF.setTop,
    QRectF.setRight, QRectF.setBottom, QRectF.left, QRectF.top, QRectF.right,
    QRectF.bottom, boundingRect, QRectF.adjusted, handleSize, handleSpace,
    updateHandles_eq_init, Option.some.injEq, ItemState.mk.injEq, QRectF.mk.injEq]
  norm_num
  and_intros <;> first | rfl | trivial | ring

/-- The state `mouseMoveEventBottomLeft` stores, in closed form: the press-time
bounding rect `pr`, the press position `pp` and the current pointer `mp`
determine the moved edges; the untouched edges come from the current rect. -/
lemma bottomLeft_eq (rect : QRectF) (hs : Fin 8 → QRectF) (hsel mm : Option (Fin 8))
    (pp mp : QPointF) (pr : QRectF) :
    mouseMoveEventBottomLeft ⟨rect, hs, hsel, some pp, some pr, mm⟩ mp =
      some ⟨⟨pr.x + (mp.x - pp.x) + 4,
             rect.y,
             rect.x + rect.w - (pr.x + (mp.x - pp.x) + 4),
             pr.y + pr.h + (mp.y - pp.y) - 4 - rect.y⟩,
            initHandles
              ⟨pr.x + (mp.x - pp.x) + 4,
               rect.y,
               rect.x + rect.w - (pr.x + (mp.x - pp.x) + 4),
               pr.y + pr.h + (mp.y - pp.y) - 4 - rect.y⟩,
            hsel, some pp, some pr, mm⟩ := by
  simp only [mouseMoveEventBottomLeft, Option.bind, QRectF.setLeft, QRectF.setTop,
    QRectF.setRight, QRectF.setBottom, QRectF.left, QRectF.top, QRectF.right,
    QRectF.bottom, boundingRect, QRectF.adjusted, handleSize, handleSpace,
    updateHandles_eq_init, Option.some.injEq, ItemState.mk.injEq, QRectF.mk.injEq]
  norm_num
  and_intros <;> first | rfl | trivial | ring

/-- The state `mouseMoveEventBottomMiddle` stores, in closed form: the press-time
bounding rect `pr`, the press position `pp` and the current pointer `mp`
determine the moved edges; the untouched edges come from the current rect. -/
lemma bottomMiddle_eq (rect : QRectF) (hs : Fin 8 → QRectF) (hsel mm : Option (Fin 8))
    (pp mp : QPointF) (pr : QRectF) :
    mouseMoveEventBottomMiddle ⟨rect, hs, hsel, some pp, some pr, mm⟩ mp =
      some ⟨⟨rect.x,
             rect.y,
             rect.w,
             pr.y + pr.h + (mp.y - pp.y) - 4 - rect.y⟩,
            initHandles
              ⟨rect.x,
               rect.y,
               rect.w,
               pr.y + pr.h + (mp.y - pp.y) - 4 - rect.y⟩,
            hsel, some pp, some pr, mm⟩ := by
  simp only [mouseMoveEventBottomMiddle, Option.bind, QRectF.setLeft, QRectF.setTop,
    QRectF.setRight, QRectF.setBottom, QRectF.left, QRectF.top, QRectF.right,
    QRectF.bottom, boundingRect, QRectF.adjusted, handleSize, handleSpace,
    updateHandles_eq_init, Option.some.injEq, ItemState.mk.injEq, QRectF.mk.injEq]
  norm_num
  and_intros <;> first | rfl | trivial | ring

/-- The state `mouseMoveEventBottomRight` stores, in closed form: the press-time
bounding rect `pr`, the press position `pp` and the current pointer `mp`
determine the moved edges; the untouched edges come from the current rect. -/
lemma bottomRight_eq (rect : QRectF) (hs : Fin 8 → QRectF) (hsel mm : Option (Fin 8))
    (pp mp : QPointF) (pr : QRectF) :
    mouseMoveEventBottomRight ⟨rect, hs, hsel, some pp, some pr, mm⟩ mp =
      some ⟨⟨rect.x,
             rect.y,
             pr.x + pr.w + (mp.x - pp.x) - 4 - rect.x,
             pr.y + pr.h + (mp.y - pp.y) - 4 - rect.y⟩,
            initHandles
              ⟨rect.x,
               rect.y,
               pr.x + pr.w + (mp.x - pp.x) - 4 - rect.x,
               pr.y + pr.h + (mp.y - pp.y) - 4 - rect.y⟩,
            hsel, some pp, some pr, mm⟩ := by
  simp only [mouseMoveEventBottomRight, Option.bind, QRectF.setLeft, QRectF.setTop,
    QRectF.setRight, QRectF.setBottom, QRectF.left, QRectF.top, QRectF.right,
    QRectF.bottom, boundingRect, QRectF.adjusted, handleSize, handleSpace,
    updateHandles_eq_init, Option.some.injEq, ItemState.mk.injEq, QRectF.mk.injEq]
  norm_num
  and_intros <;> first | rfl | trivial | ring

/-! ## Index-by-index unfoldings -/

/-- Entry 0 of the `mouseMoveEventByHandle` dispatch list. -/
lemma byHandle_zero : mouseMoveEventByHandle 0 = mouseMoveEventTopLeft := rfl

/-- Entry 1 of the `mouseMoveEventByHandle` dispatch list. -/
lemma byHandle_one : mouseMoveEventByHandle 1 = mouseMoveEventTopMiddle := rfl

/-- Entry 2 of the `mouseMoveEventByHandle` dispatch list. -/
lemma byHandle_two : mouseMoveEventByHandle 2 = mouseMoveEventTopRight := rfl

/-- Entry 3 of the `mouseMoveEventByHandle` dispatch list. -/
lemma byHandle_three : mouseMoveEventByHandle 3 = mouseMoveEventMiddleLeft := rfl

/-- Entry 4 of the `mouseMoveEventByHandle` dispatch list. -/
lemma byHandle_four : mouseMoveEventByHandle 4 = mouseMoveEventMiddleRight := rfl

/-- Entry 5 of the `mouseMoveEventByHandle` dispatch list. -/
lemma byHandle_five : mouseMoveEventByHandle 5 = mouseMoveEventBottomLeft := rfl

/-- Entry 6 of the `mouseMoveEventByHandle` dispatch list. -/
lemma byHandle_six : mouseMoveEventByHandle 6 = mouseMoveEventBottomMiddle := rfl

/-- Entry 7 of the `mouseMoveEventByHandle` dispatch list. -/
lemma byHandle_seven : mouseMoveEventByHandle 7 = mouseMoveEventBottomRight := rfl

/-- Row 0 of the spec's transform table. -/
lemma dragTable_zero (L T R B dx dy : ℚ) :
    dragTable 0 L T R B dx dy = (L + dx, T + dy, R, B) := rfl

/-- Row 1 of the spec's transform table. -/
lemma dragTable_one (L T R B dx dy : ℚ) :
    dragTable 1 L T R B dx dy = (L, T + dy, R, B) := rfl

/-- Row 2 of the spec's transform table. -/
lemma dragTable_two (L T R B dx dy : ℚ) :
    dragTable 2 L T R B dx dy = (L, T + dy, R + dx, B) := rfl

/-- Row 3 of the spec's transform table. -/
lemma dragTable_three (L T R B dx dy : ℚ) :
    dragTable 3 L T R B dx dy = (L + dx, T, R, B) := rfl

/-- Row 4 of the spec's transform table. -/
lemma dragTable_four (L T R B dx dy : ℚ) :
    dragTable 4 L T R B dx dy = (L, T, R + dx, B) := rfl

/-- Row 5 of the spec's transform table. -/
lemma dragTable_five (L T R B dx dy : ℚ) :
    dragTable 5 L T R B dx dy = (L + dx, T, R, B + dy) := rfl

/-- Row 6 of the spec's transform table. -/
lemma dragTable_six (L T R B dx dy : ℚ) :
    dragTable 6 L T R B dx dy = (L, T, R, B + dy) := rfl

/-- Row 7 of the spec's transform table. -/
lemma dragTable_seven (L T R B dx dy : ℚ) :
    dragTable 7 L T R B dx dy = (L, T, R + dx, B + dy) := rfl

/-- Handle region 0. -/
lemma initHandles_val_zero (r : QRectF) :
    initHandles r 0 = ⟨(boundingRect r).left, (boundingRect r).top, handleSize, handleSize⟩ := rfl

/-- Handle region 1. -/
lemma initHandles_val_one (r : QRectF) :
    initHandles r 1 = ⟨(boundingRect r).centerX - handleSize / 2, (boundingRect r).top, handleSize, handleSize⟩ := rfl

/-- Handle region 2. -/
lemma initHandles_val_two (r : QRectF) :
    initHandles r 2 = ⟨(boundingRect r).right - handleSize, (boundingRect r).top, handleSize, handleSize⟩ := rfl

/-- Handle region 3. -/
lemma initHandles_val_three (r : QRectF) :
    initHandles r 3 = ⟨(boundingRect r).left, (boundingRect r).centerY - handleSize / 2, handleSize, handleSize⟩ := rfl

/-- Handle region 4. -/
lemma initHandles_val_four (r : QRectF) :
    initHandles r 4 = ⟨(boundingRect r).right - handleSize, (boundingRect r).centerY - handleSize / 2, handleSize, handleSize⟩ := rfl

/-- Handle region 5. -/
lemma initHandles_val_five (r : QRectF) :
    initHandles r 5 = ⟨(boundingRect r).left, (boundingRect r).bottom - handleSize, handleSize, handleSize⟩ := rfl

/-- Handle region 6. -/
lemma initHandles_val_six (r : QRectF) :
    initHandles r 6 = ⟨(boundingRect r).centerX - handleSize / 2, (boundingRect r).bottom - handleSize, handleSize, handleSize⟩ := rfl

/-- Handle region 7. -/
lemma initHandles_val_seven (r : QRectF) :
    initHandles r 7 = ⟨(boundingRect r).right - handleSize, (boundingRect r).bottom - handleSize, handleSize, handleSize⟩ := rfl

/-- C1: dragging a selected handle by `(dx, dy)` from a press-time rect
with edges `(L, T, R, B)` stores exactly the rect of the per-handle
transform table, and the edges the handle does not name are unchanged. -/
theorem resize_drag_matches_table (k : Fin 8) (L T R B px py dx dy : ℚ) :
    (mouseMoveEventByHandle k (pressState k L T R B px py) ⟨px + dx, py + dy⟩).map
        (fun s => (s.rect.left, s.rect.top, s.rect.right, s.rect.bottom)) =
      some (dragTable k L T R B dx dy) := by
  fin_cases k <;>
    simp [byHandle_zero, byHandle_one, byHandle_two, byHandle_three, byHandle_four,
      byHandle_five, byHandle_six, byHandle_seven, pressState,
      dragTable_zero, dragTable_one, dragTable_two, dragTable_three, dragTable_four,
      dragTable_five, dragTable_six, dragTable_seven,
      topLeft_eq, topMiddle_eq, topRight_eq, middleLeft_eq, middleRight_eq,
      bottomLeft_eq, bottomMiddle_eq, bottomRight_eq, boundingRect, QRectF.adjusted,
      handleSize, handleSpace,
      QRectF.left, QRectF.top, QRectF.right, QRectF.bottom, Prod.mk.injEq] <;>
    and_intros <;> ring

/-- C2: within one drag session the drag is absolute-from-press: running a
per-handle move handler at pointer position `p1` and then at `p2` leaves
the item in exactly the state a single move to `p2` produces. -/
theorem drag_absolute_from_press (k : Fin 8) (st : ItemState) (p1 p2 : QPointF) :
    (mouseMoveEventByHandle k st p1).bind (fun s => mouseMoveEventByHandle k s p2) =
      mouseMoveEventByHandle k st p2 := by
  obtain ⟨rect, hs, hsel, mpp, mpr, mm⟩ := st
  cases mpp with
  | none => fin_cases k <;> rfl
  | some pp =>
      cases mpr with
      | none => fin_cases k <;> rfl
      | some pr =>
          fin_cases k <;>
            simp [byHandle_zero, byHandle_one, byHandle_two, byHandle_three,
              byHandle_four, byHandle_five, byHandle_six, byHandle_seven,
              topLeft_eq, topMiddle_eq, topRight_eq, middleLeft_eq, middleRight_eq,
              bottomLeft_eq, bottomMiddle_eq, bottomRight_eq]

/-- C5: after each of the eight per-handle resize handlers completes, the
eight stored handle regions equal the fixed geometric function
(`initHandles`) of the post-drag rect — no stale handle geometry. -/
theorem handles_fresh_after_drag (k : Fin 8) (st : ItemState) (p : QPointF) :
    (mouseMoveEventByHandle k st p).elim True
      (fun s => s.handles = initHandles s.rect) := by
  obtain ⟨rect, hs, hsel, mpp, mpr, mm⟩ := st
  cases mpp with
  | none => fin_cases k <;> exact trivial
  | some pp =>
      cases mpr with
      | none => fin_cases k <;> exact trivial
      | some pr => fin_cases k <;> exact updateHandles_eq_init _ _

/-- C6: a drag delta that carries the dragged edge past the opposite edge
is not clamped and raises nothing: every handler still returns a state,
and dragging top-left with `L + dx > R` stores, as-is, a rect of negative
width. -/
theorem resize_drag_no_clamping (L T R B px py dx dy : ℚ) (hpast : R < L + dx) :
    (∀ k : Fin 8, (mouseMoveEventByHandle k (pressState k L T R B px py)
        ⟨px + dx, py + dy⟩).isSome = true) ∧
      (mouseMoveEventTopLeft (pressState 0 L T R B px py) ⟨px + dx, py + dy⟩).map
          ItemState.rect =
        some ⟨L + dx, T + dy, R - L - dx, B - T - dy⟩ ∧
      R - L - dx < 0 := by
  refine ⟨fun k => ?_, ?_, by linarith⟩
  · fin_cases k <;> rfl
  · simp only [pressState, topLeft_eq, boundingRect, QRectF.adjusted,
      handleSize, handleSpace, Option.map_some, Option.some.injEq, QRectF.mk.injEq]
    norm_num
    and_intros <;> ring

/-- C6 witness: from press-time rect `(0, 0, 300, 150)` a top-left drag by
`(400, 10)` crosses the right edge and stores width `-100`. -/
theorem resize_drag_no_clamping_witness :
    (300 : ℚ) < 0 + 400 ∧
      ((∀ k : Fin 8, (mouseMoveEventByHandle k (pressState k 0 0 300 150 0 0)
          ⟨0 + 400, 0 + 10⟩).isSome = true) ∧
        (mouseMoveEventTopLeft (pressState 0 0 0 300 150 0 0) ⟨0 + 400, 0 + 10⟩).map
            ItemState.rect =
          some ⟨0 + 400, 0 + 10, 300 - 0 - 400, 150 - 0 - 10⟩ ∧
        (300 : ℚ) - 0 - 400 < 0) :=
  ⟨by norm_num, resize_drag_no_clamping 0 0 300 150 0 0 400 10 (by norm_num)⟩

/-- C3 (amended): `handleAt` returns index `k` for any point strictly
inside handle `k`'s region that no earlier region contains, and `none`
for a point outside all eight regions; at small rect sizes the regions
overlap and the earliest containing region wins. -/
theorem hitTest_strict_inside (rect : QRectF) (k : Fin 8) (p : QPointF) :
    (strictlyInside (initHandles rect k) p →
        (∀ j : Fin 8, j < k → (initHandles rect j).contains p = false) →
        handleAt (initHandles rect) p = some k) ∧
      ((∀ j : Fin 8, (initHandles rect j).contains p = false) →
        handleAt (initHandles rect) p = none) := by
  constructor
  · intro hin hfirst
    obtain ⟨h1, h2, h3, h4⟩ := hin
    have hw : (0 : ℚ) < (initHandles rect k).w := by
      rw [initHandles_w]; norm_num [handleSize]
    have hh : (0 : ℚ) < (initHandles rect k).h := by
      rw [initHandles_h]; norm_num [handleSize]
    exact handleAt_eq_some_of_first _ _ k
      (contains_of_pos _ _ hw hh h1.le h2.le h3.le h4.le) hfirst
  · intro hall
    rw [handleAt_unfold]
    simp [hall 0, hall 1, hall 2, hall 3, hall 4, hall 5, hall 6, hall 7]

/-- C3 witness: on the `(0, 0, 300, 150)` rect, `(0, 0)` lies strictly
inside handle 0's region and is hit-tested to handle 0, and
`(1000, 1000)` lies outside all regions and is hit-tested to `none`. -/
theorem hitTest_strict_inside_witness :
    handleAt (initHandles ⟨0, 0, 300, 150⟩) ⟨0, 0⟩ = some 0 ∧
      handleAt (initHandles ⟨0, 0, 300, 150⟩) ⟨1000, 1000⟩ = none := by
  constructor
  · refine (hitTest_strict_inside ⟨0, 0, 300, 150⟩ 0 ⟨0, 0⟩).1 ?_ ?_
    · norm_num [strictlyInside, initHandles_val_zero, boundingRect, QRectF.adjusted,
        QRectF.left, QRectF.top, QRectF.right, QRectF.bottom, handleSize, handleSpace]
    · intro j hj
      exact absurd hj (Fin.not_lt_zero j)
  · refine (hitTest_strict_inside ⟨0, 0, 300, 150⟩ 0 ⟨1000, 1000⟩).2 ?_
    intro j
    fin_cases j <;>
      norm_num [initHandles, QRectF.contains,
        QRectF.containsAxis, boundingRect, QRectF.adjusted, QRectF.left, QRectF.top,
        QRectF.right, QRectF.bottom, QRectF.centerX, QRectF.centerY,
        handleSize, handleSpace]

/-- C3 counterexample to the claim as stated: on a `0 × 0` rect all eight
handle regions coincide; `(0, 0)` is strictly inside handle 7's region,
yet `handleAt` returns handle 0, not 7. -/
theorem hitTest_strict_inside_cex :
    strictlyInside (initHandles ⟨0, 0, 0, 0⟩ 7) ⟨0, 0⟩ ∧
      handleAt (initHandles ⟨0, 0, 0, 0⟩) ⟨0, 0⟩ ≠ some 7 := by
  constructor
  · norm_num [strictlyInside, initHandles_val_seven, boundingRect, QRectF.adjusted,
      QRectF.left, QRectF.top, QRectF.right, QRectF.bottom, handleSize, handleSpace]
  · rw [handleAt_unfold]
    norm_num [initHandles_val_zero, QRectF.contains, QRectF.containsAxis,
      boundingRect, QRectF.adjusted, QRectF.left, QRectF.top, QRectF.right,
      QRectF.bottom, handleSize, handleSpace]
    decide

/-- C4: `handleAt` returns the first handle region in the fixed
enumeration order 0..7 that contains the point, and `none` exactly when
no region contains it. -/
theorem handleAt_first_match (hs : Fin 8 → QRectF) (p : QPointF) :
    (∀ k : Fin 8, handleAt hs p = some k ↔
        (hs k).contains p = true ∧
          ∀ j : Fin 8, j < k → (hs j).contains p = false) ∧
      (handleAt hs p = none ↔ ∀ k : Fin 8, (hs k).contains p = false) := by
  constructor
  · intro k
    constructor
    · intro h
      have h2 : (List.finRange 8).find? (fun j => (hs j).contains p) = some k := h
      have hk0 := List.find?_some h2
      have hk : (hs k).contains p = true := hk0
      have hsome : (Fin.find fun j : Fin 8 => (hs j).contains p = true).isSome :=
        Fin.isSome_find_iff.2 ⟨k, hk⟩
      obtain ⟨m, hm⟩ := Option.isSome_iff_exists.1 hsome
      obtain ⟨hpm, hmin⟩ := Fin.find_eq_some_iff.1 hm
      have hfirst : ∀ j : Fin 8, j < m → (hs j).contains p = false := by
        intro j hj
        cases hcj : (hs j).contains p with
        | false => rfl
        | true => exact absurd (hmin j hcj) (not_le.2 hj)
      have hAm := handleAt_eq_some_of_first hs p m hpm hfirst
      have hkm : k = m := by
        rw [h] at hAm
        exact Option.some.inj hAm
      subst hkm
      exact ⟨hpm, hfirst⟩
    · intro h
      exact handleAt_eq_some_of_first hs p k h.1 h.2
  · constructor
    · intro h j
      have h3 : (List.finRange 8).find? (fun i => (hs i).contains p) = none := h
      have h4 := List.find?_eq_none.1 h3 j (List.mem_finRange j)
      simpa using h4
    · intro hall
      show (List.finRange 8).find? (fun i => (hs i).contains p) = none
      apply List.find?_eq_none.2
      intro j hj
      simp [hall j]
